/-
Verification of the `branch-peg` fusion engine (`src/product_normaliser.py`).

This file gives a shallow embedding, in Lean 4, of the product-fusion core:
the name canonicalizer `clean_product_name`, the entity resolver
`find_or_create_product` / `are_similar_products`, the per-source ingestion
calls, the social-signal keyword extractor `extract_products_from_video`,
the metric normalizer `normalize_scores`, the composite scorer
`calculate_composite_scores` (including the pandas `sort_values`
descending sort, whose default `quicksort` kind is the numpy introsort
`aquicksort`), and the exporter `export_to_csv`.

Modelling conventions:
- Python strings are Lean `String`s, manipulated as `List Char`.
  The regex character classes `\w`, `\s`, `\d` are modelled over ASCII
  (`pyIsWord`, `pyIsSpace`, `Char.isDigit`); the inputs this system feeds
  through these functions are ASCII product names and hashtags.
- Python floats are modelled as `ℚ` (exact arithmetic).
- A Python dict record with possibly-missing keys is a structure of
  `Option` fields; `record.get(key, default)` is `field.getD default`.
- The mutable `products_data` list is threaded explicitly; an in-place
  `dict.update` on a resolved product becomes a functional update at the
  resolved index.
- Attribute lookups on attributes that may not have been set
  (`self.normalized_df`, `self.scored_df`) are `Option` fields of an
  explicit state; reading an unset one is an `AttributeError` value.
-/
import Mathlib

namespace BranchPeg

/-! ## Python string primitives (ASCII model)

`str.split()` splits on runs of whitespace and drops empty pieces;
`\s` is whitespace; `\w` is `[A-Za-z0-9_]`; `\d` is `[0-9]`. -/

/-- Python `\s` over ASCII: space, tab, newline, carriage return,
vertical tab, form feed. -/
def pyIsSpace (c : Char) : Bool :=
  c = ' ' || c = '\t' || c = '\n' || c = '\r' || c = '\x0b' || c = '\x0c'

/-- Python `\w` over ASCII: letters, digits, underscore. -/
def pyIsWord (c : Char) : Bool :=
  c.isAlpha || c.isDigit || c = '_'

/-- Python `str.lower()` over ASCII (`String.toLower` of core Lean is
implemented by an opaque partial function and is avoided so that every
definition evaluates in the kernel). -/
def pyLower (s : String) : String := String.mk (s.data.map Char.toLower)

/-- Case-insensitive match of the literal `w` at the front of `s`
(the `re.I` flag); returns the remainder after the literal. -/
def matchCI : List Char → List Char → Option (List Char)
  | [], s => some s
  | _ :: _, [] => none
  | w :: ws, c :: cs => if w.toLower = c.toLower then matchCI ws cs else none

/-- Python `str.split()` (no separator argument), structured with a fuel
parameter so that the definition is structurally recursive and evaluates
in the kernel. Every recursive call strictly shrinks the list, so fuel
equal to the list length (as supplied by `pySplit`) never runs out. -/
def pySplitF : Nat → List Char → List (List Char)
  | _, [] => []
  | 0, _ :: _ => []
  | fuel + 1, c :: cs =>
    if pyIsSpace c then pySplitF fuel cs
    else
      (c :: cs).takeWhile (fun x => !pyIsSpace x) ::
        pySplitF fuel ((c :: cs).dropWhile (fun x => !pyIsSpace x))

/-- Python `str.split()` (no separator argument): split on runs of
whitespace, dropping empty pieces. -/
def pySplit (s : List Char) : List (List Char) := pySplitF s.length s

/-- `' '.join(pieces)`. -/
def joinSpace : List (List Char) → List Char
  | [] => []
  | [w] => w
  | w :: ws => w ++ ' ' :: joinSpace ws

/-- Python `str.strip()`: drop whitespace from both ends. -/
def pyStrip (s : List Char) : List Char :=
  ((s.dropWhile pyIsSpace).reverse.dropWhile pyIsSpace).reverse

/-! ## Name canonicalizer (`ProductNormalizer.clean_product_name`, lines 165-181) -/

/-- Alternatives of `^(New|Hot|Best|Top|Premium|Professional)\s+`, in the
source's alternation order. -/
def marketingWords : List (List Char) :=
  ["New".data, "Hot".data, "Best".data, "Top".data, "Premium".data, "Professional".data]

/-- `re.sub(r'^(New|Hot|Best|Top|Premium|Professional)\s+', '', name, flags=re.I)`.
The pattern is anchored, so there is at most one match, at position 0: a
marketing word (case-insensitive) followed by at least one whitespace
character; the greedy `\s+` consumes the whole whitespace run. On failure
of `\s+` the regex engine retries the remaining alternatives at position 0
(none of the six words is a prefix of another, so at most one can match). -/
def stripLeadingMarketing (s : List Char) : List Char :=
  match marketingWords.findSome? (fun w =>
      (matchCI w s).bind (fun rest =>
        match rest with
        | [] => none
        | c :: _ => if pyIsSpace c then some (rest.dropWhile pyIsSpace) else none)) with
  | some r => r
  | none => s

/-- Alternatives of `\s+(Set|Kit|Pack|Bundle|Piece|Pcs)$`, in the source's
alternation order. -/
def packagingWords : List (List Char) :=
  ["Set".data, "Kit".data, "Pack".data, "Bundle".data, "Piece".data, "Pcs".data]

/-- `re.sub(r'\s+(Set|Kit|Pack|Bundle|Piece|Pcs)$', '', name, flags=re.I)`.
The match must end at `$`, so it is a packaging word at the very end of
the string, preceded by at least one whitespace character; the leftmost
match start makes the greedy `\s+` cover the whole whitespace run before
the word. Implemented on the reversed string. -/
def stripTrailingPackaging (s : List Char) : List Char :=
  match packagingWords.findSome? (fun w =>
      (matchCI w.reverse s.reverse).bind (fun rest =>
        match rest with
        | [] => none
        | c :: _ => if pyIsSpace c then some (rest.dropWhile pyIsSpace) else none)) with
  | some r => r.reverse
  | none => s

/-- `re.sub(r'[^\w\s-]', ' ', s)`: every character that is not a word
character, whitespace, or hyphen becomes a space. -/
def punctToSpace (s : List Char) : List Char :=
  s.map (fun c => if pyIsWord c || pyIsSpace c || c = '-' then c else ' ')

/-- Alternatives of `(pcs?|pieces?|set|pack)` in the order the regex engine
tries them: the greedy `s?` attempts the longer form first. -/
def unitWords : List (List Char) :=
  ["pcs".data, "pc".data, "pieces".data, "piece".data, "set".data, "pack".data]

/-- Try to match `\d+\s*(pcs?|pieces?|set|pack)\b` at the start of `s`
(the word boundary before the digits is checked by the caller), returning
the total number of characters matched. The greedy `\d+` and `\s*` never
benefit from backtracking here because no alternative of the group starts
with a digit or a space. -/
def matchQty (s : List Char) : Option Nat :=
  let ds := s.takeWhile Char.isDigit
  if ds.isEmpty then none
  else
    let rest1 := s.drop ds.length
    let sp := rest1.takeWhile pyIsSpace
    let rest2 := rest1.drop sp.length
    (unitWords.findSome? (fun w =>
      (matchCI w rest2).bind (fun rest3 =>
        match rest3 with
        | [] => some w.length
        | c :: _ => if pyIsWord c then none else some w.length))).map
      (fun wlen => ds.length + sp.length + wlen)

/-- `re.sub(r'\b\d+\s*(pcs?|pieces?|set|pack)\b', '', s, flags=re.I)`: scan
left to right; at each position that is a word boundary before a digit
(previous character absent or not a word character), try the pattern; on a
match, remove the matched characters and resume scanning right after them
(`re.sub` replaces non-overlapping leftmost matches). `prev` is the
character of the original string just before the current position. The
fuel parameter makes the recursion structural; a successful match always
consumes at least one character (its `\d+` part is non-empty), so fuel
equal to the list length (as supplied by `removeQty`) never runs out. -/
def removeQtyAux : Nat → Option Char → List Char → List Char
  | _, _, [] => []
  | 0, _, l => l
  | fuel + 1, prev, c :: cs =>
    if c.isDigit && (match prev with | none => true | some p => !pyIsWord p) then
      match matchQty (c :: cs) with
      | some n => removeQtyAux fuel ((c :: cs).take n).getLast? ((c :: cs).drop n)
      | none => c :: removeQtyAux fuel (some c) cs
    else c :: removeQtyAux fuel (some c) cs

/-- The quantity-phrase removal pass. -/
def removeQty (s : List Char) : List Char := removeQtyAux s.length none s

/-- `ProductNormalizer.clean_product_name` (src/product_normaliser.py lines
165-181): strip a leading marketing token, strip a trailing packaging
token, replace punctuation by spaces, remove quantity phrases, collapse
whitespace, and truncate to 100 characters. -/
def clean_product_name (name : String) : String :=
  if name = "" then ""
  else
    let c1 := stripLeadingMarketing name.data
    let c2 := stripTrailingPackaging c1
    let c3 := punctToSpace c2
    let c4 := removeQty c3
    let c5 := joinSpace (pySplit c4)
    String.mk ((pyStrip c5).take 100)

/-! ## Entity resolver (`are_similar_products`, `find_or_create_product`) -/

/-- `ProductNormalizer.are_similar_products` (lines 183-200): Jaccard
similarity over the sets of lowercase whitespace tokens, matched when
similarity exceeds 0.6. The Python comparison is between floats; for
token-set sizes of realistic magnitude the float comparison
`intersection/union > 0.6` agrees with the exact rational comparison
against `3/5` used here. -/
def are_similar_products (name1 name2 : String) : Bool :=
  if name1 = "" || name2 = "" then false
  else
    let norm1 := (pySplit (pyLower name1).data).dedup
    let norm2 := (pySplit (pyLower name2).data).dedup
    let intersection := (norm1.filter (fun t => norm2.contains t)).length
    let union := (norm1 ++ norm2.filter (fun t => !norm1.contains t)).length
    if union = 0 then false
    else decide ((intersection : ℚ) / (union : ℚ) > 3 / 5)

/-- The canonical fused Product entity (a Python dict in the source).
Per-source fields that a source may not yet have contributed are
`Option`s (`none` models the key being absent from the dict).
`created_at` is an environment-supplied timestamp (`datetime.now()`);
it plays no role in any computation and is modelled as the constant
`""`. -/
structure Product where
  name : String
  created_at : String := ""
  has_trend_data : Bool := false
  has_ali_data : Bool := false
  has_amz_data : Bool := false
  has_tiktok_data : Bool := false
  trend_momentum : Option ℚ := none
  trend_avg_interest : Option ℚ := none
  trend_max_interest : Option ℚ := none
  related_queries : Option (List String) := none
  ali_orders : Option ℚ := none
  ali_reviews : Option ℚ := none
  ali_rating : Option ℚ := none
  ali_price : Option ℚ := none
  ali_url : Option String := none
  amz_reviews : Option ℚ := none
  amz_rating : Option ℚ := none
  amz_price : Option ℚ := none
  amz_bsr : Option ℚ := none
  amz_is_prime : Option Bool := none
  amz_url : Option String := none
  tiktok_video_count : Option ℚ := none
  tiktok_total_views : Option ℚ := none
  tiktok_total_likes : Option ℚ := none
  tiktok_total_comments : Option ℚ := none
  tiktok_total_shares : Option ℚ := none
  tiktok_avg_views : Option ℚ := none
  tiktok_url : Option String := none
deriving DecidableEq

/-- The fresh entry appended by `find_or_create_product` (lines 152-162):
canonical name, creation timestamp, and the four presence flags, all
false. -/
def newProduct (clean_name : String) : Product :=
  { name := clean_name }

/-- The linear scan of lines 147-150: the index of the first stored
product whose name is similar to the candidate. -/
def findSimilar (clean_name : String) : List Product → Option Nat
  | [] => none
  | p :: ps =>
    if are_similar_products p.name clean_name then some 0
    else (findSimilar clean_name ps).map (fun i => i + 1)

/-- `ProductNormalizer.find_or_create_product` (lines 140-163). `none`
models the sentinel empty dict `{}` returned for a degenerate canonical
name (nothing is stored and the caller's `update` mutates a temporary);
`some (ps, i)` gives the possibly extended product list together with the
index of the resolved product, modelling the alias into
`self.products_data` that the Python method returns. -/
def find_or_create_product (ps : List Product) (product_name : String) :
    Option (List Product × Nat) :=
  let clean_name := clean_product_name product_name
  if clean_name = "" || clean_name.length < 3 then none
  else
    match findSimilar clean_name ps with
    | some i => some (ps, i)
    | none => some (ps ++ [newProduct clean_name], ps.length)

/-- Apply `f` at index `i` (the in-place `dict.update` performed on the
alias that `find_or_create_product` returned). -/
def updateAt (f : Product → Product) : List Product → Nat → List Product
  | [] => fun _ => []
  | p :: ps => fun i =>
    match i with
    | 0 => f p :: ps
    | j + 1 => p :: updateAt f ps j

/-- One source-specific ingestion step: resolve-or-create, then merge via
`f`; a degenerate name leaves the product list untouched. -/
def ingestWith (ps : List Product) (product_name : String) (f : Product → Product) :
    List Product :=
  match find_or_create_product ps product_name with
  | none => ps
  | some pr => updateAt f pr.1 pr.2

/-! ## Per-source ingestion (`add_trend_data`, `add_aliexpress_data`,
`add_amazon_data`) -/

/-- A Google Trends result record; missing dict keys are `none`. -/
structure TrendRecord where
  keyword : Option String := none
  momentum : Option ℚ := none
  avg_interest : Option ℚ := none
  max_interest : Option ℚ := none
  related_queries : Option (List String) := none

/-- The field merge performed by `add_trend_data` (lines 40-46):
`product.update({...})` with each value read via `.get(key, default)`. -/
def applyTrend (trend : TrendRecord) (p : Product) : Product :=
  { p with
    trend_momentum := some (trend.momentum.getD 0)
    trend_avg_interest := some (trend.avg_interest.getD 0)
    trend_max_interest := some (trend.max_interest.getD 0)
    related_queries := some (trend.related_queries.getD [])
    has_trend_data := true }

/-- One record step of `add_trend_data` (lines 35-46): resolve the
keyword, merge the trend fields. -/
def trendStep (ps : List Product) (trend : TrendRecord) : List Product :=
  ingestWith ps (trend.keyword.getD "") (applyTrend trend)

/-- `ProductNormalizer.add_trend_data` (lines 31-46). -/
def add_trend_data (ps : List Product) (trend_results : List TrendRecord) : List Product :=
  trend_results.foldl trendStep ps

/-- An AliExpress product record; missing dict keys are `none`. -/
structure AliRecord where
  name : Option String := none
  orders : Option ℚ := none
  reviews : Option ℚ := none
  rating : Option ℚ := none
  price : Option ℚ := none
  url : Option String := none

/-- The field merge performed by `add_aliexpress_data` (lines 57-64). -/
def applyAli (ali : AliRecord) (p : Product) : Product :=
  { p with
    ali_orders := some (ali.orders.getD 0)
    ali_reviews := some (ali.reviews.getD 0)
    ali_rating := some (ali.rating.getD 0)
    ali_price := some (ali.price.getD 0)
    ali_url := some (ali.url.getD "")
    has_ali_data := true }

/-- One record step of `add_aliexpress_data` (lines 52-64): the record
name is cleaned before resolution (the resolver then cleans it again). -/
def aliStep (ps : List Product) (ali : AliRecord) : List Product :=
  ingestWith ps (clean_product_name (ali.name.getD "")) (applyAli ali)

/-- `ProductNormalizer.add_aliexpress_data` (lines 48-64). -/
def add_aliexpress_data (ps : List Product) (aliexpress_products : List AliRecord) :
    List Product :=
  aliexpress_products.foldl aliStep ps

/-- An Amazon product record; missing dict keys are `none`. -/
structure AmzRecord where
  name : Option String := none
  reviews : Option ℚ := none
  rating : Option ℚ := none
  price : Option ℚ := none
  bsr : Option ℚ := none
  is_prime : Option Bool := none
  url : Option String := none

/-- The field merge performed by `add_amazon_data` (lines 75-83). Note the
defaults: every field defaults to zero/empty/false except `amz_bsr`,
which `amz_product.get('bsr', 999)` defaults to 999. -/
def applyAmz (amz : AmzRecord) (p : Product) : Product :=
  { p with
    amz_reviews := some (amz.reviews.getD 0)
    amz_rating := some (amz.rating.getD 0)
    amz_price := some (amz.price.getD 0)
    amz_bsr := some (amz.bsr.getD 999)
    amz_is_prime := some (amz.is_prime.getD false)
    amz_url := some (amz.url.getD "")
    has_amz_data := true }

/-- One record step of `add_amazon_data` (lines 70-83). -/
def amzStep (ps : List Product) (amz : AmzRecord) : List Product :=
  ingestWith ps (clean_product_name (amz.name.getD "")) (applyAmz amz)

/-- `ProductNormalizer.add_amazon_data` (lines 66-83). -/
def add_amazon_data (ps : List Product) (amazon_products : List AmzRecord) : List Product :=
  amazon_products.foldl amzStep ps

/-! ## Social-signal keyword extraction (`extract_products_from_video`,
lines 202-240)

The four title patterns are embedded as explicit backtracking matchers:
`greedySplits p s` enumerates the ways a greedy `p+` can match at the
front of `s` (longest first, then each shorter non-empty alternative),
and nested `findSome?` reproduces the engine's backtracking order (the
latest quantifier varies fastest). -/

/-- The candidate matches of a greedy one-character-class `+` quantifier
at the front of `s`: (matched run, remainder), longest run first. -/
def greedySplits (p : Char → Bool) (s : List Char) : List (List Char × List Char) :=
  let run := (s.takeWhile p).length
  (List.range run).map (fun k => (s.take (run - k), s.drop (run - k)))

/-- `(\w+\s+\w+)\s+(?:review|unboxing|haul)` at the front of `s`:
returns (captured group, remainder after the whole match). -/
def tryPat1 (s : List Char) : Option (List Char × List Char) :=
  (greedySplits pyIsWord s).findSome? fun w1 =>
  (greedySplits pyIsSpace w1.2).findSome? fun sp1 =>
  (greedySplits pyIsWord sp1.2).findSome? fun w2 =>
  (greedySplits pyIsSpace w2.2).findSome? fun _sp2 =>
  (["review".data, "unboxing".data, "haul".data].findSome? fun cue =>
    (matchCI cue _sp2.2).map fun r => (w1.1 ++ sp1.1 ++ w2.1, r))

/-- `(?:review|trying|testing)\s+(\w+\s+\w+)` at the front of `s`. -/
def tryPat2 (s : List Char) : Option (List Char × List Char) :=
  ["review".data, "trying".data, "testing".data].findSome? fun cue =>
  (matchCI cue s).bind fun r1 =>
  (greedySplits pyIsSpace r1).findSome? fun _sp1 =>
  (greedySplits pyIsWord _sp1.2).findSome? fun w1 =>
  (greedySplits pyIsSpace w1.2).findSome? fun sp2 =>
  (greedySplits pyIsWord sp2.2).findSome? fun w2 =>
  some (w1.1 ++ sp2.1 ++ w2.1, w2.2)

/-- `(\w+\s+\w+)\s+(?:from|on)\s+(?:amazon|aliexpress)` at the front of
`s`. -/
def tryPat3 (s : List Char) : Option (List Char × List Char) :=
  (greedySplits pyIsWord s).findSome? fun w1 =>
  (greedySplits pyIsSpace w1.2).findSome? fun sp1 =>
  (greedySplits pyIsWord sp1.2).findSome? fun w2 =>
  (greedySplits pyIsSpace w2.2).findSome? fun _sp2 =>
  (["from".data, "on".data].findSome? fun ca =>
    (matchCI ca _sp2.2).bind fun r1 =>
    (greedySplits pyIsSpace r1).findSome? fun _sp3 =>
    (["amazon".data, "aliexpress".data].findSome? fun cb =>
      (matchCI cb _sp3.2).map fun r2 => (w1.1 ++ sp1.1 ++ w2.1, r2)))

/-- `(?:amazing|viral|must.have)` at the front of `s` (the `.` matches
any single character other than newline). The three alternatives start
with distinct letters, so at most one can match at a given position. -/
def matchSuperlative (s : List Char) : Option (List Char) :=
  (matchCI "amazing".data s).orElse fun _ =>
  (matchCI "viral".data s).orElse fun _ =>
  (matchCI "must".data s).bind fun r =>
    match r with
    | [] => none
    | c :: cs => if c = '\n' then none else matchCI "have".data cs

/-- `(?:amazing|viral|must.have)\s+(\w+(?:\s+\w+)?)` at the front of `s`:
the optional second word is greedy, so the two-word capture is tried
before the one-word fallback. -/
def tryPat4 (s : List Char) : Option (List Char × List Char) :=
  (matchSuperlative s).bind fun r1 =>
  (greedySplits pyIsSpace r1).findSome? fun _sp1 =>
  (greedySplits pyIsWord _sp1.2).findSome? fun w1 =>
  (((greedySplits pyIsSpace w1.2).findSome? fun sp2 =>
      (greedySplits pyIsWord sp2.2).findSome? fun w2 =>
        some (w1.1 ++ sp2.1 ++ w2.1, w2.2)).orElse fun _ =>
    some (w1.1, w1.2))

/-- `re.findall`: collect the captured group of each non-overlapping
match, scanning left to right and resuming right after each match. The
fuel (initialised to the string length by `findallPat`) bounds the number
of steps; it never runs out because every step either moves one position
right or consumes a non-empty match. -/
def findallAux (tryPat : List Char → Option (List Char × List Char)) :
    Nat → List Char → List (List Char)
  | 0, _ => []
  | _, [] => []
  | fuel + 1, c :: cs =>
    match tryPat (c :: cs) with
    | some (g, r) => g :: findallAux tryPat fuel r
    | none => findallAux tryPat fuel cs

/-- `re.findall(pattern, title_lower, re.I)`. -/
def findallPat (tryPat : List Char → Option (List Char × List Char)) (s : List Char) :
    List (List Char) :=
  findallAux tryPat s.length s

/-- `set.add` for a Python `set` of strings, modelled as an
insertion-ordered duplicate-free list. (CPython's real iteration order is
hash-based and unspecified; the spec declares candidate order not
significant, and every property proved below is order-independent.) -/
def setAdd (l : List String) (x : String) : List String :=
  if l.contains x then l else l ++ [x]

/-- The generic-hashtag stoplist of lines 229. -/
def tiktokStoplist : List String := ["viral", "trending", "fyp", "foryou", "tiktok"]

/-- One step of the hashtag loop (lines 227-231): skip stoplisted or
short hashtags, add the rest to the candidate set. -/
def hashtagStep (acc : List String) (hashtag : String) : List String :=
  if !(tiktokStoplist.contains (pyLower hashtag)) && decide (hashtag.length > 3) then
    setAdd acc hashtag
  else acc

/-- The candidate set built by `extract_products_from_video` before
cleaning and filtering: the four title patterns' stripped matches
(patterns in source order), then each hashtag that is not in the
stoplist and is longer than 3 characters. -/
def extract_candidates (title : String) (hashtags : List String) : List String :=
  let tl := (pyLower title).data
  let fromTitle :=
    (findallPat tryPat1 tl ++ findallPat tryPat2 tl ++ findallPat tryPat3 tl ++
        findallPat tryPat4 tl).map (fun g => String.mk (pyStrip g))
  hashtags.foldl hashtagStep (fromTitle.foldl setAdd [])

/-- `cleaned_products` (lines 234-238): each candidate canonicalized and
kept when its cleaned form is longer than 5 characters and splits into at
least 2 tokens. -/
def extract_kept (title : String) (hashtags : List String) : List String :=
  (extract_candidates title hashtags).filterMap (fun product =>
    let cleaned := clean_product_name product
    if decide (cleaned.length > 5) && decide ((pySplit cleaned.data).length ≥ 2) then
      some cleaned
    else none)

/-- `ProductNormalizer.extract_products_from_video` (lines 202-240): a
falsy (empty) title returns the empty list at once, before the hashtags
are examined; otherwise the kept candidates, capped at 5. -/
def extract_products_from_video (title : String) (hashtags : List String) : List String :=
  if title = "" then [] else (extract_kept title hashtags).take 5

/-! ## Metric normalizer (`normalize_scores`, lines 242-286) -/

/-- One entry of `metrics_config`. All entries of the source dict carry
explicit `min_val` and `max_val`, so the fallbacks
`config.get('min_val', df[metric].min())` never fire. -/
structure MetricConfig where
  min_val : ℚ
  max_val : ℚ
  reverse : Bool := false
deriving DecidableEq

/-- `.clip(0, 1)` on a single value. -/
def clip01 (x : ℚ) : ℚ := max 0 (min 1 x)

/-- Normalization of one metric value under one configuration (lines
269-283): min-max scaling, inverted for reverse metrics, 0.5 for a
degenerate range, then clipped to [0, 1] (the clip is applied to every
branch, including the 0.5 default). -/
def normalizeMetric (config : MetricConfig) (v : ℚ) : ℚ :=
  let raw :=
    if config.max_val > config.min_val then
      if config.reverse then 1 - (v - config.min_val) / (config.max_val - config.min_val)
      else (v - config.min_val) / (config.max_val - config.min_val)
    else (0.5 : ℚ)
  clip01 raw

/-- `metrics_config` (lines 251-260). -/
def metricsConfig : List (String × MetricConfig) :=
  [("trend_momentum", { min_val := -2, max_val := 2 }),
   ("trend_avg_interest", { min_val := 0, max_val := 100 }),
   ("ali_orders", { min_val := 0, max_val := 50000 }),
   ("ali_reviews", { min_val := 0, max_val := 5000 }),
   ("amz_reviews", { min_val := 0, max_val := 50000 }),
   ("amz_bsr", { min_val := 1, max_val := 1000, reverse := true }),
   ("tiktok_total_views", { min_val := 0, max_val := 10000000 }),
   ("tiktok_video_count", { min_val := 0, max_val := 100 })]

/-- Configuration lookup in `metrics_config`; every key used below is
present, so the fallback value never fires. -/
def cfgFor (metric : String) : MetricConfig :=
  (metricsConfig.lookup metric).getD { min_val := 0, max_val := 0 }

/-- One row of the normalized DataFrame: the product columns plus one
`<metric>_normalized` column per configured metric. A product whose dict
lacks a metric key contributes 0 (column creation and `fillna(0)`,
lines 262-266). -/
structure NormRow where
  product : Product
  trend_momentum_normalized : ℚ
  trend_avg_interest_normalized : ℚ
  ali_orders_normalized : ℚ
  ali_reviews_normalized : ℚ
  amz_reviews_normalized : ℚ
  amz_bsr_normalized : ℚ
  tiktok_total_views_normalized : ℚ
  tiktok_video_count_normalized : ℚ
deriving DecidableEq

/-- The normalization of one product row (lines 262-283). -/
def normRow (p : Product) : NormRow :=
  { product := p
    trend_momentum_normalized :=
      normalizeMetric (cfgFor "trend_momentum") (p.trend_momentum.getD 0)
    trend_avg_interest_normalized :=
      normalizeMetric (cfgFor "trend_avg_interest") (p.trend_avg_interest.getD 0)
    ali_orders_normalized :=
      normalizeMetric (cfgFor "ali_orders") (p.ali_orders.getD 0)
    ali_reviews_normalized :=
      normalizeMetric (cfgFor "ali_reviews") (p.ali_reviews.getD 0)
    amz_reviews_normalized :=
      normalizeMetric (cfgFor "amz_reviews") (p.amz_reviews.getD 0)
    amz_bsr_normalized :=
      normalizeMetric (cfgFor "amz_bsr") (p.amz_bsr.getD 0)
    tiktok_total_views_normalized :=
      normalizeMetric (cfgFor "tiktok_total_views") (p.tiktok_total_views.getD 0)
    tiktok_video_count_normalized :=
      normalizeMetric (cfgFor "tiktok_video_count") (p.tiktok_video_count.getD 0) }

/-! ## Composite scorer (`calculate_composite_scores`, lines 288-330) -/

/-- The scoring weights of `ProductNormalizer.__init__` (lines 23-29). -/
structure Weights where
  trend_momentum : ℚ := 0.35
  aliexpress_velocity : ℚ := 0.25
  tiktok_virality : ℚ := 0.20
  amazon_popularity : ℚ := 0.15
  competition_penalty : ℚ := -0.10
deriving DecidableEq

/-- A scored row: the component scores of lines 296-310 and the weighted,
clipped composite of lines 313-322. -/
structure ScoredRow where
  row : NormRow
  trend_score : ℚ
  ali_velocity_score : ℚ
  amz_popularity_score : ℚ
  tiktok_virality_score : ℚ
  competition_score : ℚ
  composite_score : ℚ
deriving DecidableEq

/-- Component scores and composite for one row (lines 296-322). -/
def scoreRow (w : Weights) (r : NormRow) : ScoredRow :=
  let trend_score :=
    r.trend_momentum_normalized * 0.7 + r.trend_avg_interest_normalized * 0.3
  let ali_velocity_score :=
    r.ali_orders_normalized * 0.6 + r.ali_reviews_normalized * 0.4
  let amz_popularity_score :=
    r.amz_reviews_normalized * 0.5 + r.amz_bsr_normalized * 0.5
  let tiktok_virality_score :=
    r.tiktok_total_views_normalized * 0.7 + r.tiktok_video_count_normalized * 0.3
  let competition_score :=
    (r.amz_reviews_normalized + r.ali_reviews_normalized) / 2
  { row := r
    trend_score := trend_score
    ali_velocity_score := ali_velocity_score
    amz_popularity_score := amz_popularity_score
    tiktok_virality_score := tiktok_virality_score
    competition_score := competition_score
    composite_score := clip01
      (trend_score * w.trend_momentum +
       ali_velocity_score * w.aliexpress_velocity +
       tiktok_virality_score * w.tiktok_virality +
       amz_popularity_score * w.amazon_popularity +
       competition_score * w.competition_penalty) }

/-! ## The ranking sort: `df.sort_values('composite_score', ascending=False)`

`DataFrame.sort_values` with its default `kind='quicksort'` computes
`nargsort(values, kind='quicksort', ascending=False)`. In the NaN-free
case pandas reverses the value array, argsorts it ascending with numpy's
`argsort(kind='quicksort')`, maps the result through the reversed index
array, and reverses it. numpy's quicksort is an introsort: median-of-3
quicksort that switches to an insertion sort on partitions of at most
`SMALL_QUICKSORT + 1 = 16` elements, and to heapsort once a depth budget
of `2*npy_get_msb(n)` partitions is exhausted. The routines below are
translated from `numpy/core/src/npysort/quicksort.c.src` (`aquicksort_`)
and `heapsort.c.src` (`aheapsort_`); index arrays are threaded
functionally, and the non-structural loops carry a fuel parameter
(initialised generously by the caller, and never exhausted: the scans
are stopped early by the pivot sentinels, the exchange loop closes the
`pi`/`pj` gap, and sift indices double) so that everything evaluates in
the kernel. -/

def SMALL_QUICKSORT : Nat := 15

/-- `npy_get_msb`: the index of the most significant set bit. -/
def npyGetMsb (n : Nat) : Nat := Nat.log2 n

/-- Insert index `i` into an ascending-sorted index list: before the
first index whose key is strictly greater (the C insertion loop shifts
elements while `LT(vp, vl[*pk])`), so equal keys keep insertion order. -/
def insertIdx (lt : Nat → Nat → Bool) (i : Nat) : List Nat → List Nat
  | [] => [i]
  | j :: rest => if lt i j then i :: j :: rest else j :: insertIdx lt i rest

/-- The insertion-sort branch of `aquicksort_`, processing the segment
left to right. -/
def insertionArgsort (lt : Nat → Nat → Bool) (seg : List Nat) : List Nat :=
  seg.foldl (fun acc i => insertIdx lt i acc) []

/-- Functional swap of two positions of the index array. -/
def swapIdx (t : Array Nat) (i j : Nat) : Array Nat :=
  let x := t.getD i 0
  let y := t.getD j 0
  (t.setD i y).setD j x

/-- The scan `do ++pi; while LT(vl[*pi], vp)` (the caller passes `pl+1`);
the pivot sentinel at `pr-1` stops it before the fuel runs out. -/
def scanUp (vl : Array ℚ) (t : Array Nat) (vp : ℚ) : Nat → Nat → Nat
  | i, 0 => i
  | i, fuel + 1 =>
    if decide (vl.getD (t.getD i 0) 0 < vp) then scanUp vl t vp (i + 1) fuel else i

/-- The scan `do --pj; while LT(vp, vl[*pj])` (the caller passes `pr-2`);
the median-of-3 sentinel at `pl` stops it at or before position 0. -/
def scanDown (vl : Array ℚ) (t : Array Nat) (vp : ℚ) : Nat → Nat
  | 0 => 0
  | j + 1 =>
    if decide (vp < vl.getD (t.getD (j + 1) 0) 0) then scanDown vl t vp j else j + 1

/-- The partition exchange loop of `aquicksort_`. -/
def partLoop (vl : Array ℚ) (vp : ℚ) : Array Nat → Nat → Nat → Nat → Array Nat × Nat
  | t, pi, _, 0 => (t, pi)
  | t, pi, pj, fuel + 1 =>
    let pi' := scanUp vl t vp (pi + 1) t.size
    let pj' := scanDown vl t vp (pj - 1)
    if pi' ≥ pj' then (t, pi')
    else partLoop vl vp (swapIdx t pi' pj') pi' pj' fuel

/-- One `aquicksort_` partition on a whole segment (local indices, so
`pl = 0` and `pr = size - 1`): median-of-3 pivot selection with its
sentinel swaps, pivot parked at `pr - 1`, Hoare-style exchange scans,
pivot swapped into its final position `pi`. -/
def partitionStep (vl : Array ℚ) (t0 : Array Nat) : Array Nat × Nat :=
  let pr := t0.size - 1
  let pm := pr / 2
  let t1 :=
    if decide (vl.getD (t0.getD pm 0) 0 < vl.getD (t0.getD 0 0) 0) then swapIdx t0 pm 0 else t0
  let t2 :=
    if decide (vl.getD (t1.getD pr 0) 0 < vl.getD (t1.getD pm 0) 0) then swapIdx t1 pr pm else t1
  let t3 :=
    if decide (vl.getD (t2.getD pm 0) 0 < vl.getD (t2.getD 0 0) 0) then swapIdx t2 pm 0 else t2
  let vp := vl.getD (t3.getD pm 0) 0
  let t4 := swapIdx t3 pm (pr - 1)
  let (t5, pi) := partLoop vl vp t4 0 (pr - 1) t4.size
  let t6 := swapIdx t5 pi (pr - 1)
  (t6, pi)

/-- 1-based access into the index array (`a = tosort - 1` in the C). -/
def aGet (t : Array Nat) (k : Nat) : Nat := t.getD (k - 1) 0

/-- 1-based update of the index array. -/
def aSet (t : Array Nat) (k : Nat) (v : Nat) : Array Nat := t.setD (k - 1) v

/-- The sift-down loop of `aheapsort_` (`tmp` is the held index; heap of
size `n`, 1-based). -/
def siftDown (vl : Array ℚ) (n : Nat) (tmp : Nat) : Array Nat → Nat → Nat → Nat → Array Nat
  | t, i, _, 0 => aSet t i tmp
  | t, i, j, fuel + 1 =>
    if j ≤ n then
      let j' :=
        if j < n && decide (vl.getD (aGet t j) 0 < vl.getD (aGet t (j + 1)) 0) then j + 1 else j
      if decide (vl.getD tmp 0 < vl.getD (aGet t j') 0) then
        siftDown vl n tmp (aSet t i (aGet t j')) j' (j' + j') fuel
      else aSet t i tmp
    else aSet t i tmp

/-- The heap construction loop of `aheapsort_` (`l` from `n/2` down to 1). -/
def heapifyAux (vl : Array ℚ) (n : Nat) : Array Nat → Nat → Array Nat
  | t, 0 => t
  | t, l + 1 => heapifyAux vl n (siftDown vl n (aGet t (l + 1)) t (l + 1) (2 * (l + 1)) (n + 1)) l

/-- The extraction loop of `aheapsort_` (`n` down to 2). -/
def heapExtract (vl : Array ℚ) : Array Nat → Nat → Array Nat
  | t, 0 => t
  | t, 1 => t
  | t, n + 2 =>
    let tmp := aGet t (n + 2)
    let t1 := aSet t (n + 2) (aGet t 1)
    heapExtract vl (siftDown vl (n + 1) tmp t1 1 2 (n + 3)) (n + 1)

/-- numpy `aheapsort_` on a whole segment. -/
def aheapsortSeg (vl : Array ℚ) (seg : List Nat) : List Nat :=
  let t := seg.toArray
  let n := t.size
  (heapExtract vl (heapifyAux vl n t (n / 2)) n).toList

/-- The `aquicksort_` driver. The C routine keeps a single `depth_limit`
counter for the whole call — `if (depth_limit-- < 0) heapsort` — which is
decremented once per partition and never restored when the explicit
stack pops; it loops on the smaller partition and stacks the larger.
Here `depth` starts at `2*npy_get_msb(n) + 1` partitions and the counter
is threaded through the recursion in the same processing order (smaller
partition first). The fuel (initialised to `n + 1`) dominates the
recursion depth, since every sub-segment is strictly shorter. The `min`
capping `pi` never binds: the pivot parked at `pr - 1` bounds the
ascending scan. -/
def aqsortGo (vl : Array ℚ) : Nat → List Nat → Nat → List Nat × Nat
  | 0, seg, depth => (seg, depth)
  | fuel + 1, seg, depth =>
    if seg.length ≤ SMALL_QUICKSORT + 1 then
      (insertionArgsort (fun i j => decide (vl.getD i 0 < vl.getD j 0)) seg, depth)
    else if depth = 0 then (aheapsortSeg vl seg, depth)
    else
      let (t, pi) := partitionStep vl seg.toArray
      let tl := t.toList
      let piC := min pi (seg.length - 1)
      let left := tl.take piC
      let piv := tl.getD piC 0
      let right := tl.drop (piC + 1)
      if left.length < right.length then
        let (ls, d1) := aqsortGo vl fuel left (depth - 1)
        let (rs, d2) := aqsortGo vl fuel right d1
        (ls ++ piv :: rs, d2)
      else
        let (rs, d1) := aqsortGo vl fuel right (depth - 1)
        let (ls, d2) := aqsortGo vl fuel left d1
        (ls ++ piv :: rs, d2)

/-- numpy `argsort(kind='quicksort')`: sort the index list
`[0, ..., n-1]` by the values. -/
def npArgsortQuick (values : List ℚ) : List Nat :=
  let n := values.length
  (aqsortGo values.toArray (n + 1) (List.range n) (2 * npyGetMsb n + 1)).1

/-- pandas `nargsort(values, kind='quicksort', ascending=False)` in the
NaN-free case: reverse the values, argsort ascending, map through the
reversed index array, reverse the result. -/
def nargsortDesc (values : List ℚ) : List Nat :=
  let n := values.length
  let revIdx := (List.range n).reverse
  ((npArgsortQuick values.reverse).map (fun k => revIdx.getD k 0)).reverse

/-- A placeholder row for out-of-range index lookups; the `nargsort`
indexer is a permutation of the row positions, so it is never used. -/
def defaultScoredRow : ScoredRow := scoreRow {} (normRow (newProduct ""))

/-- `df.sort_values('composite_score', ascending=False)` (line 325):
reorder the scored rows by the `nargsort` indexer. -/
def sortByCompositeDesc (rows : List ScoredRow) : List ScoredRow :=
  (nargsortDesc (rows.map (fun r => r.composite_score))).map
    (fun i => rows.getD i defaultScoredRow)

/-- The unsorted scored rows of `calculate_composite_scores`: normalize
each product, score it with the configured weights. -/
def scoredRows (ps : List Product) : List ScoredRow :=
  (ps.map normRow).map (scoreRow {})

/-- The `composite_score` column of the scored rows. -/
def compositeColumn (ps : List Product) : List ℚ :=
  (scoredRows ps).map (fun r => r.composite_score)

/-- The pure core of `calculate_composite_scores` (lines 288-330):
normalize, score with the configured weights, sort descending by
composite score. -/
def calculate_composite_scores_table (ps : List Product) : List ScoredRow :=
  sortByCompositeDesc (scoredRows ps)

/-- Position `a` must precede position `b` in a descending stable
ranking of `values`: strictly greater key, or equal keys with `a` first
in insertion order. A list of positions that is pairwise in this
relation and a permutation of all positions is the unique stable
descending ranking. -/
def rankedBefore (values : List ℚ) (a b : Nat) : Prop :=
  values.getD a 0 > values.getD b 0 ∨ (values.getD a 0 = values.getD b 0 ∧ a < b)

/-- The strict ascending-key-then-position order on positions used to
characterise the insertion argsort. -/
def lexv (v : Nat → ℚ) (a b : Nat) : Prop :=
  v a < v b ∨ (v a = v b ∧ a < b)

/-! ## The stateful pipeline (`normalize_scores`, `calculate_composite_scores`,
`get_top_products`, `export_to_csv`) -/

/-- The `AttributeError` raised by reading an instance attribute that was
never assigned. -/
inductive PyError
  | attributeError
deriving DecidableEq

/-- The mutable state of a `ProductNormalizer` instance: the product
list, the lazily assigned `normalized_df` / `scored_df` attributes
(`none` models the attribute not existing, as tested by `hasattr`), and
the log of emitted warnings. -/
structure NormalizerState where
  products_data : List Product := []
  normalized_df : Option (List NormRow) := none
  scored_df : Option (List ScoredRow) := none
  log : List String := []

/-- A freshly constructed `ProductNormalizer()` (lines 18-29): empty
product list, neither DataFrame attribute assigned. -/
def freshNormalizer : NormalizerState := {}

/-- `ProductNormalizer.normalize_scores` (lines 242-286): with an empty
product list it logs a warning and returns **without assigning**
`self.normalized_df`; otherwise it builds and assigns the normalized
table. -/
def normalize_scores (st : NormalizerState) : NormalizerState :=
  if st.products_data.isEmpty then
    { st with log := st.log ++ ["No products data to normalize"] }
  else
    { st with normalized_df := some (st.products_data.map normRow) }

/-- `ProductNormalizer.calculate_composite_scores` (lines 288-330): call
`normalize_scores` if the `normalized_df` attribute is missing, then read
`self.normalized_df` — an `AttributeError` if it is still missing —
score each row with `self.weights`, sort descending by composite score,
assign `scored_df`, and return the table. -/
def calculate_composite_scores (st : NormalizerState) :
    Except PyError (NormalizerState × List ScoredRow) :=
  let st1 := if st.normalized_df.isNone then normalize_scores st else st
  match st1.normalized_df with
  | none => .error .attributeError
  | some rows =>
    let scored := sortByCompositeDesc (rows.map (scoreRow {}))
    .ok ({ st1 with scored_df := some scored }, scored)

/-- Python `round(x, n)`: round half to even, modelled exactly on ℚ. -/
def pyRound (x : ℚ) (n : Nat) : ℚ :=
  let s := x * (10 ^ n : ℚ)
  let fl := ⌊s⌋
  let fr := s - (fl : ℚ)
  let r :=
    if fr < 1 / 2 then fl
    else if fr > 1 / 2 then fl + 1
    else if fl % 2 = 0 then fl else fl + 1
  (r : ℚ) / (10 ^ n : ℚ)

/-- Python `int(x)`: truncation toward zero. -/
def pyInt (x : ℚ) : ℤ := if x < 0 then ⌈x⌉ else ⌊x⌋

/-- Fixed-point rendering with one decimal digit (`f"{v:.1f}"` for the
nonnegative magnitudes formatted by `format_number`). -/
def formatFix1 (v : ℚ) : String :=
  let n := pyInt (pyRound v 1 * 10)
  toString (n / 10) ++ "." ++ toString (n % 10)

/-- `ProductNormalizer.format_number` (lines 371-378). -/
def format_number (num : ℚ) : String :=
  if num ≥ 1000000 then formatFix1 (num / 1000000) ++ "M"
  else if num ≥ 1000 then formatFix1 (num / 1000) ++ "K"
  else toString (pyInt num)

/-- `ProductNormalizer.get_data_sources` (lines 380-391). -/
def get_data_sources (p : Product) : List String :=
  (if p.has_trend_data then ["Google Trends"] else []) ++
    (if p.has_ali_data then ["AliExpress"] else []) ++
      (if p.has_amz_data then ["Amazon"] else []) ++
        (if p.has_tiktok_data then ["TikTok"] else [])

/-- One display record of `get_top_products` (lines 340-365); the alias
columns repeat their originals. -/
structure DisplayRecord where
  product_name : String
  score : ℚ
  trend_momentum : ℚ
  trend_slope : ℚ
  ali_orders : ℤ
  orders : ℤ
  ali_reviews : ℤ
  amz_reviews : ℤ
  reviews : ℤ
  tiktok_total_views : ℤ
  tiktok_views : String
  tiktok_videos : ℤ
  ali_url : String
  link_ali : String
  amz_url : String
  link_amazon : String
  tiktok_url : String
  link_tiktok : String
  related_queries : List String
  data_sources : List String
  ali_price : ℚ
  amz_price : ℚ
  ali_rating : ℚ
  amz_rating : ℚ
deriving DecidableEq

/-- The display record built from one scored row (lines 340-365). A
product dict that never received a column's key contributes that
column's `row.get` default. -/
def displayRecord (r : ScoredRow) : DisplayRecord :=
  let p := r.row.product
  { product_name := p.name
    score := pyRound r.composite_score 3
    trend_momentum := pyRound (p.trend_momentum.getD 0) 3
    trend_slope := pyRound (p.trend_momentum.getD 0) 2
    ali_orders := pyInt (p.ali_orders.getD 0)
    orders := pyInt (p.ali_orders.getD 0)
    ali_reviews := pyInt (p.ali_reviews.getD 0)
    amz_reviews := pyInt (p.amz_reviews.getD 0)
    reviews := pyInt (p.amz_reviews.getD 0)
    tiktok_total_views := pyInt (p.tiktok_total_views.getD 0)
    tiktok_views := format_number (p.tiktok_total_views.getD 0)
    tiktok_videos := pyInt (p.tiktok_video_count.getD 0)
    ali_url := p.ali_url.getD ""
    link_ali := p.ali_url.getD ""
    amz_url := p.amz_url.getD ""
    link_amazon := p.amz_url.getD ""
    tiktok_url := p.tiktok_url.getD ""
    link_tiktok := p.tiktok_url.getD ""
    related_queries := p.related_queries.getD []
    data_sources := get_data_sources p
    ali_price := pyRound (p.ali_price.getD 0) 2
    amz_price := pyRound (p.amz_price.getD 0) 2
    ali_rating := pyRound (p.ali_rating.getD 0) 1
    amz_rating := pyRound (p.amz_rating.getD 0) 1 }

/-- `if not hasattr(self, 'scored_df'): self.calculate_composite_scores()`
followed by reading `self.scored_df` (the guard of lines 334-335, 395-396,
439-440). -/
def ensureScored (st : NormalizerState) :
    Except PyError (NormalizerState × List ScoredRow) :=
  match st.scored_df with
  | some rows => .ok (st, rows)
  | none => calculate_composite_scores st

/-- `ProductNormalizer.get_top_products` (lines 332-369): the first `n`
rows of the scored table, rendered as display records. -/
def get_top_products (st : NormalizerState) (n : Nat) :
    Except PyError (NormalizerState × List DisplayRecord) :=
  (ensureScored st).map (fun p => (p.1, (p.2.take n).map displayRecord))

/-- One serialized CSV row (lines 420-428): the display record with its
two list-valued fields flattened to `'; '`-joined strings
(`related_queries` truncated to its first 3 entries). The final textual
rendering of the scalar fields by `csv.DictWriter` is not modelled. -/
structure CsvRow where
  record : DisplayRecord
  data_sources_joined : String
  related_queries_joined : String
deriving DecidableEq

/-- Serialization of one display record (lines 420-428). -/
def csvRow (d : DisplayRecord) : CsvRow :=
  { record := d
    data_sources_joined := String.intercalate "; " d.data_sources
    related_queries_joined := String.intercalate "; " (d.related_queries.take 3) }

/-- `ProductNormalizer.export_to_csv` (lines 393-435): ensure `scored_df`
(its `AttributeError`, if any, propagates to the caller — only the file
writing sits inside the `try`), take the top products, return `false`
and write nothing when there are none, else write the rows and return
`true`. The result carries the written file as `Option (List CsvRow)`
(`none` = no file written); an I/O failure of the actual file system,
which the `except` maps to `False`, is environmental and not modelled. -/
def export_to_csv (st : NormalizerState) (top_n : Nat := 50) :
    Except PyError (NormalizerState × Bool × Option (List CsvRow)) :=
  (get_top_products st top_n).map (fun p =>
    if p.2.isEmpty then
      ({ p.1 with log := p.1.log ++ ["No products to export"] }, false, none)
    else
      (p.1, true, some (p.2.map csvRow)))

/-! ## Concrete instantiation data used by the claim witnesses and
counterexamples -/

/-- Concrete instantiation data for the C8 witness: one AliExpress
record ingested first, one Amazon record ingested second, resolving to
the same stored Product. -/
def c8AliRecord : AliRecord := { name := some "wireless earbuds", orders := some 100 }

def c8AmzRecord : AmzRecord := { name := some "wireless earbuds", reviews := some 7 }

def c8AfterAli : List Product := add_aliexpress_data [] [c8AliRecord]

def c4WitnessProducts : List Product := [newProduct "phone holder", newProduct "led strip"]

/-- The 17 products of the C4 counterexample: identical (hence
equal-scoring) source data, distinct single-letter names. -/
def c4Products : List Product :=
  (List.range 17).map (fun k => newProduct (String.mk [Char.ofNat (65 + k)]))

/-! ## Claims -/

theorem clean_product_name_length_le (name : String) :
    (clean_product_name name).length ≤ 100 := by
  unfold clean_product_name
  by_cases h : name = ""
  · simp [h, String.length]
  · simp only [h, if_false, String.length, String.mk]
    have := List.length_take 100 (pyStrip (joinSpace (pySplit (removeQty
      (punctToSpace (stripTrailingPackaging (stripLeadingMarketing name.data)))))))
    omega

example : clean_product_name "New Hot Phone Case" = "Hot Phone Case" := by decide

example : clean_product_name "Hot Phone Case" = "Phone Case" := by decide

example : clean_product_name "LED Strip Lights 10 pcs Set" = "LED Strip Lights" := by decide

example : clean_product_name "Wireless!! Earbuds" = "Wireless Earbuds" := by decide


/-- C1, counterexample: `clean_product_name` is not idempotent. On
`"New Hot Phone Case"` the first application strips only the leading
`"New "`, exposing `"Hot"`, which the second application then strips:
cleaning once gives `"Hot Phone Case"`, cleaning twice gives
`"Phone Case"`. -/
theorem C1_counterexample :
    clean_product_name (clean_product_name "New Hot Phone Case") ≠
      clean_product_name "New Hot Phone Case" := by decide

/-- C1, amended: `clean_product_name` is not idempotent — a second
application can strip a marketing or packaging token exposed by the
first — but it is length-bounded as the same spec clause states: its
output never exceeds 100 characters, for every input string. -/
theorem C1_amended (name : String) : (clean_product_name name).length ≤ 100 :=
  clean_product_name_length_le name

/-- C2 (code bug): invoked with zero products, `normalize_scores` logs
its warning and returns **without assigning** `self.normalized_df`; the
scoring step `calculate_composite_scores` — whose own guard calls
`normalize_scores` precisely in order to establish that attribute — then
raises `AttributeError` at `self.normalized_df.copy()` instead of
producing an empty scored table. -/
theorem C2_empty_dataset_raises :
    (normalize_scores freshNormalizer).normalized_df = none ∧
      (normalize_scores freshNormalizer).log = ["No products data to normalize"] ∧
      calculate_composite_scores freshNormalizer = .error .attributeError :=
  ⟨rfl, rfl, rfl⟩

/-- C3 (code bug): `export_to_csv` on an empty Product set does not
return `False` — the `AttributeError` from `calculate_composite_scores`
(see C2) propagates out of it, because the `try` block only covers the
file write. No file is written, but by an exception rather than by the
documented boolean failure result. -/
theorem C3_export_empty_raises :
    export_to_csv freshNormalizer = .error .attributeError := rfl

/-- C5, counterexample: an Amazon record with a usable name but without
the `bsr` field does not receive the claimed zero default:
`amz_product.get('bsr', 999)` stores 999 on the Product. -/
theorem C5_counterexample :
    (add_amazon_data [] [{ name := some "wireless earbuds" }]).map
        (fun p => (p.name, p.amz_bsr)) = [("wireless earbuds", some (999 : ℚ))] ∧
      (999 : ℚ) ≠ 0 := by
  constructor
  · decide
  · norm_num

/-- C5, amended: for every source record missing an expected field,
ingestion substitutes that field's fixed default without propagating any
error — zero/empty/false for every field except the marketplace-B
(Amazon) popularity rank `bsr`, whose default is 999 rather than zero. -/
theorem C5_amended (amz : AmzRecord) (trend : TrendRecord) (p : Product) :
    (amz.reviews = none → (applyAmz amz p).amz_reviews = some 0) ∧
      (amz.rating = none → (applyAmz amz p).amz_rating = some 0) ∧
      (amz.price = none → (applyAmz amz p).amz_price = some 0) ∧
      (amz.is_prime = none → (applyAmz amz p).amz_is_prime = some false) ∧
      (amz.url = none → (applyAmz amz p).amz_url = some "") ∧
      (amz.bsr = none → (applyAmz amz p).amz_bsr = some 999) ∧
      (trend.momentum = none → (applyTrend trend p).trend_momentum = some 0) ∧
      (trend.avg_interest = none → (applyTrend trend p).trend_avg_interest = some 0) ∧
      (trend.max_interest = none → (applyTrend trend p).trend_max_interest = some 0) ∧
      (trend.related_queries = none → (applyTrend trend p).related_queries = some []) := by
  refine ⟨?_, ?_, ?_, ?_, ?_, ?_, ?_, ?_, ?_, ?_⟩ <;>
    (intro h; simp [applyAmz, applyTrend, h])

theorem C5_amended_witness :
    (applyAmz {} (newProduct "wireless earbuds")).amz_bsr = some 999 ∧
      (applyTrend {} (newProduct "wireless earbuds")).trend_momentum = some 0 :=
  ⟨(C5_amended {} {} (newProduct "wireless earbuds")).2.2.2.2.2.1 rfl,
   (C5_amended {} {} (newProduct "wireless earbuds")).2.2.2.2.2.2.1 rfl⟩

/-- C6: under a metric configuration with `max_val > min_val` the
normalized value is the claimed clipped min-max form — inverted for a
reverse metric — and always lies in [0, 1]; under `max_val = min_val` it
is exactly 0.5, whatever the product value. -/
theorem C6_normalization (config : MetricConfig) (v : ℚ) :
    (config.max_val > config.min_val →
      (config.reverse = false →
          normalizeMetric config v =
            clip01 ((v - config.min_val) / (config.max_val - config.min_val))) ∧
        (config.reverse = true →
          normalizeMetric config v =
            clip01 (1 - (v - config.min_val) / (config.max_val - config.min_val))) ∧
        0 ≤ normalizeMetric config v ∧ normalizeMetric config v ≤ 1) ∧
      (config.max_val = config.min_val → normalizeMetric config v = 0.5) := by
  constructor
  · intro hgt
    have h0 : ∀ x : ℚ, 0 ≤ clip01 x := fun x => le_max_left 0 _
    have h1 : ∀ x : ℚ, clip01 x ≤ 1 := fun x => max_le (by norm_num) (min_le_left 1 x)
    refine ⟨fun hrev => ?_, fun hrev => ?_, h0 _, h1 _⟩ <;>
      simp [normalizeMetric, hgt, hrev]
  · intro heq
    have hng : ¬config.max_val > config.min_val := by rw [heq]; exact lt_irrefl _
    simp [normalizeMetric, hng, clip01]
    norm_num

theorem C6_normalization_witness :
    ((cfgFor "trend_avg_interest").max_val > (cfgFor "trend_avg_interest").min_val ∧
        normalizeMetric (cfgFor "trend_avg_interest") 45 =
          clip01 ((45 - (cfgFor "trend_avg_interest").min_val) /
            ((cfgFor "trend_avg_interest").max_val - (cfgFor "trend_avg_interest").min_val))) ∧
      normalizeMetric { min_val := 7, max_val := 7 } 123 = 0.5 :=
  ⟨⟨by decide, ((C6_normalization (cfgFor "trend_avg_interest") 45).1 (by decide)).1 rfl⟩,
   (C6_normalization { min_val := 7, max_val := 7 } 123).2 rfl⟩

/-- C7: for a name whose canonical form is empty or shorter than 3
characters, `find_or_create_product` stores nothing and returns the
sentinel (`none` here, the empty dict in the source), so the caller's
subsequent field-merge — whatever fields it writes — leaves the stored
Product list exactly as it was. -/
theorem C7_degenerate_name (ps : List Product) (product_name : String)
    (h : clean_product_name product_name = "" ∨
      (clean_product_name product_name).length < 3) :
    find_or_create_product ps product_name = none ∧
      ∀ f : Product → Product, ingestWith ps product_name f = ps := by
  have hnone : find_or_create_product ps product_name = none := by
    unfold find_or_create_product
    rcases h with h | h <;> simp [h]
  exact ⟨hnone, fun f => by unfold ingestWith; rw [hnone]⟩

theorem C7_degenerate_name_witness :
    find_or_create_product [newProduct "led strip lights"] "ab" = none ∧
      ingestWith [newProduct "led strip lights"] "ab" (applyAli {}) =
        [newProduct "led strip lights"] := by
  have h := C7_degenerate_name [newProduct "led strip lights"] "ab" (Or.inr (by decide))
  exact ⟨h.1, h.2 (applyAli {})⟩

/-! ### C9: hashtag candidates -/

theorem mem_setAdd_of_mem {l : List String} {y : String} (x : String) (h : y ∈ l) :
    y ∈ setAdd l x := by
  unfold setAdd
  split
  · exact h
  · exact List.mem_append_left _ h

theorem mem_setAdd_self (l : List String) (x : String) : x ∈ setAdd l x := by
  unfold setAdd
  split
  · next hc => exact List.mem_of_elem_eq_true hc
  · exact List.mem_append_right _ (List.mem_singleton.mpr rfl)

theorem mem_hashtagStep_of_mem {acc : List String} {y : String} (hashtag : String)
    (h : y ∈ acc) : y ∈ hashtagStep acc hashtag := by
  unfold hashtagStep
  split
  · exact mem_setAdd_of_mem _ h
  · exact h

theorem mem_foldl_hashtagStep_of_mem :
    ∀ (hs : List String) (acc : List String) (y : String), y ∈ acc →
      y ∈ hs.foldl hashtagStep acc
  | [], _, _, h => h
  | hashtag :: hs, acc, y, h =>
    mem_foldl_hashtagStep_of_mem hs (hashtagStep acc hashtag) y
      (mem_hashtagStep_of_mem hashtag h)

theorem mem_foldl_hashtagStep :
    ∀ (hs : List String) (acc : List String) (h : String), h ∈ hs →
      tiktokStoplist.contains (pyLower h) = false → h.length > 3 →
      h ∈ hs.foldl hashtagStep acc
  | [], _, _, hmem, _, _ => absurd hmem (List.not_mem_nil _)
  | hashtag :: hs, acc, h, hmem, hstop, hlen => by
    rcases List.mem_cons.mp hmem with heq | hmem'
    · subst heq
      refine mem_foldl_hashtagStep_of_mem hs _ h ?_
      unfold hashtagStep
      rw [if_pos (by
        have : tiktokStoplist.contains (pyLower h) = false := hstop
        simp only [Bool.and_eq_true, Bool.not_eq_true', decide_eq_true_eq]
        exact ⟨this, hlen⟩)]
      exact mem_setAdd_self _ _
    · exact mem_foldl_hashtagStep hs (hashtagStep acc hashtag) h hmem' hstop hlen

theorem mem_extract_kept {title : String} {hashtags : List String} {h : String}
    (hmem : h ∈ extract_candidates title hashtags)
    (hclean : (clean_product_name h).length > 5)
    (htok : (pySplit (clean_product_name h).data).length ≥ 2) :
    clean_product_name h ∈ extract_kept title hashtags := by
  unfold extract_kept
  refine List.mem_filterMap.mpr ⟨h, hmem, ?_⟩
  simp [hclean, htok]

/-- C9, counterexample: the extractor's `if not title: return
list(products)` guard runs before the hashtag loop, so a video with an
empty title yields no candidates even for a hashtag that qualifies on
every stated criterion — longer than 3 characters, not stoplisted,
cleaned form longer than 5 characters with at least 2 tokens. -/
theorem C9_counterexample :
    extract_products_from_video "" ["phone holder stand"] = [] ∧
      "phone holder stand".length > 3 ∧
      tiktokStoplist.contains (pyLower "phone holder stand") = false ∧
      clean_product_name "phone holder stand" = "phone holder stand" ∧
      (clean_product_name "phone holder stand").length > 5 ∧
      (pySplit (clean_product_name "phone holder stand").data).length ≥ 2 := by
  refine ⟨rfl, by decide, by decide, by decide, by decide, by decide⟩

/-- C9, amended: provided the title is non-empty, each hashtag longer
than 3 characters and not in the stoplist (`viral`, `trending`, `fyp`,
`foryou`, `tiktok`) is added as a candidate independently of the title
patterns; a candidate is kept only if its cleaned form has length > 5
and at least 2 tokens, and the result is the kept candidates capped at
5. (With an empty title the extractor returns no candidates at all,
hashtags included.) -/
theorem C9_amended (title : String) (hashtags : List String) (h : String)
    (htitle : title ≠ "") (hmem : h ∈ hashtags) (hlen : h.length > 3)
    (hstop : tiktokStoplist.contains (pyLower h) = false)
    (hclean : (clean_product_name h).length > 5)
    (htok : (pySplit (clean_product_name h).data).length ≥ 2) :
    clean_product_name h ∈ extract_kept title hashtags ∧
      extract_products_from_video title hashtags = (extract_kept title hashtags).take 5 ∧
      (extract_products_from_video title hashtags).length ≤ 5 := by
  have hcand : h ∈ extract_candidates title hashtags :=
    mem_foldl_hashtagStep hashtags _ h hmem hstop hlen
  have hru : extract_products_from_video title hashtags =
      (extract_kept title hashtags).take 5 := by
    unfold extract_products_from_video
    rw [if_neg htitle]
  refine ⟨mem_extract_kept hcand hclean htok, hru, ?_⟩
  rw [hru]
  exact List.length_take_le 5 _

theorem C9_amended_witness :
    clean_product_name "phone holder stand" ∈ extract_kept "x" ["phone holder stand"] ∧
      extract_products_from_video "x" ["phone holder stand"] =
        (extract_kept "x" ["phone holder stand"]).take 5 ∧
      (extract_products_from_video "x" ["phone holder stand"]).length ≤ 5 :=
  C9_amended "x" ["phone holder stand"] "phone holder stand" (by decide)
    (List.mem_singleton.mpr rfl) (by decide) (by decide) (by decide) (by decide)

/-! ### C10: resolver invariant -/

theorem findSimilar_lt_length (clean_name : String) :
    ∀ (ps : List Product) (i : Nat), findSimilar clean_name ps = some i → i < ps.length
  | [], i, h => by simp [findSimilar] at h
  | p :: ps, i, h => by
    unfold findSimilar at h
    split at h
    · cases h
      simp
    · simp only [Option.map_eq_some'] at h
      obtain ⟨j, hj, rfl⟩ := h
      have := findSimilar_lt_length clean_name ps j hj
      simp only [List.length_cons]
      omega

/-- C10: the Product-set invariant of the resolver. Under the stored-name
invariant (every stored name has between 3 and 100 characters), any
non-sentinel `find_or_create_product` call either returns an existing
stored Product with the list unchanged, or appends exactly one new
Product at the end — named by the canonical input name, of length
between 3 and 100, with all four presence flags false. It never removes,
reorders, or renames stored Products, and the name invariant is
preserved. -/
theorem C10_resolver_invariant (ps : List Product) (product_name : String)
    (hinv : ∀ p ∈ ps, 3 ≤ p.name.length ∧ p.name.length ≤ 100) :
    ∀ ps' i, find_or_create_product ps product_name = some (ps', i) →
      ((ps' = ps ∧ i < ps.length) ∨
        (i = ps.length ∧
          ps' = ps ++ [newProduct (clean_product_name product_name)] ∧
          (newProduct (clean_product_name product_name)).name =
            clean_product_name product_name ∧
          3 ≤ (clean_product_name product_name).length ∧
          (clean_product_name product_name).length ≤ 100 ∧
          (newProduct (clean_product_name product_name)).has_trend_data = false ∧
          (newProduct (clean_product_name product_name)).has_ali_data = false ∧
          (newProduct (clean_product_name product_name)).has_amz_data = false ∧
          (newProduct (clean_product_name product_name)).has_tiktok_data = false)) ∧
        ∀ p ∈ ps', 3 ≤ p.name.length ∧ p.name.length ≤ 100 := by
  intro ps' i h
  dsimp only [find_or_create_product] at h
  split at h
  · exact absurd h (by simp)
  · next hcond =>
    have hlen3 : 3 ≤ (clean_product_name product_name).length := by
      simp only [Bool.or_eq_true, decide_eq_true_eq, not_or] at hcond
      exact Nat.not_lt.mp hcond.2
    split at h
    · next j hj =>
      have h' := Option.some.inj h
      have hps : ps' = ps := (congrArg Prod.fst h').symm
      have hi : i = j := (congrArg Prod.snd h').symm
      refine ⟨Or.inl ⟨hps, ?_⟩, ?_⟩
      · rw [hi]
        exact findSimilar_lt_length _ ps _ hj
      · rw [hps]
        exact hinv
    · have h' := Option.some.inj h
      have h1 : ps' = ps ++ [newProduct (clean_product_name product_name)] :=
        (congrArg Prod.fst h').symm
      have h2 : i = ps.length := (congrArg Prod.snd h').symm
      refine ⟨Or.inr ⟨h2, h1, rfl, hlen3, clean_product_name_length_le _,
        rfl, rfl, rfl, rfl⟩, ?_⟩
      intro p hp
      rw [h1] at hp
      rcases List.mem_append.mp hp with hp | hp
      · exact hinv p hp
      · rw [List.mem_singleton.mp hp]
        exact ⟨hlen3, clean_product_name_length_le _⟩

theorem C10_resolver_invariant_witness :
    find_or_create_product [] "wireless earbuds" =
        some ([newProduct "wireless earbuds"], 0) ∧
      3 ≤ (newProduct "wireless earbuds").name.length ∧
      (newProduct "wireless earbuds").name.length ≤ 100 := by
  have heq : find_or_create_product [] "wireless earbuds" =
      some ([newProduct "wireless earbuds"], 0) := by decide
  have h := (C10_resolver_invariant [] "wireless earbuds"
      (fun p hp => absurd hp (List.not_mem_nil p))
      [newProduct "wireless earbuds"] 0 heq).2
      (newProduct "wireless earbuds") (List.mem_singleton.mpr rfl)
  exact ⟨heq, h.1, h.2⟩

/-! ### C8: cross-source frame lemmas -/

theorem updateAt_proj {α : Type} (g : Product → α) (f : Product → Product)
    (hf : ∀ q, g (f q) = g q) :
    ∀ (l : List Product) (i j : Nat) (d : Product),
      g ((updateAt f l i).getD j d) = g (l.getD j d)
  | [], _, _, _ => rfl
  | _ :: _, 0, 0, _ => hf _
  | _ :: _, 0, _ + 1, _ => rfl
  | _ :: _, _ + 1, 0, _ => rfl
  | _ :: ps, i + 1, j + 1, d => updateAt_proj g f hf ps i j d

theorem updateAt_length (f : Product → Product) :
    ∀ (l : List Product) (i : Nat), (updateAt f l i).length = l.length
  | [], _ => rfl
  | _ :: _, 0 => rfl
  | _ :: ps, i + 1 => congrArg (· + 1) (updateAt_length f ps i)

theorem find_or_create_shape (ps : List Product) (nm : String) :
    ∀ pr, find_or_create_product ps nm = some pr →
      pr.1 = ps ∨ pr.1 = ps ++ [newProduct (clean_product_name nm)] := by
  intro pr h
  dsimp only [find_or_create_product] at h
  split at h
  · exact absurd h (by simp)
  · split at h
    · exact Or.inl (congrArg Prod.fst (Option.some.inj h)).symm
    · exact Or.inr (congrArg Prod.fst (Option.some.inj h)).symm

theorem ingestWith_proj {α : Type} (g : Product → α) (f : Product → Product)
    (hf : ∀ q, g (f q) = g q) (ps : List Product) (nm : String) :
    ps.length ≤ (ingestWith ps nm f).length ∧
      ∀ j d, j < ps.length → g ((ingestWith ps nm f).getD j d) = g (ps.getD j d) := by
  unfold ingestWith
  cases hfc : find_or_create_product ps nm with
  | none => exact ⟨le_refl _, fun _ _ _ => rfl⟩
  | some pr =>
    dsimp only
    rcases find_or_create_shape ps nm pr hfc with hsh | hsh <;> rw [hsh]
    · refine ⟨by rw [updateAt_length], fun j d _ => updateAt_proj g f hf ps pr.2 j d⟩
    · refine ⟨?_, fun j d hj => ?_⟩
      · rw [updateAt_length]
        simp
      · rw [updateAt_proj g f hf _ pr.2 j d, List.getD_append _ _ _ _ hj]

theorem foldl_ingest_proj {α β : Type} (g : Product → α)
    (step : List Product → β → List Product)
    (hstep : ∀ ps r, ps.length ≤ (step ps r).length ∧
      ∀ j d, j < ps.length → g ((step ps r).getD j d) = g (ps.getD j d)) :
    ∀ (recs : List β) (ps : List Product),
      ps.length ≤ (recs.foldl step ps).length ∧
        ∀ j d, j < ps.length → g ((recs.foldl step ps).getD j d) = g (ps.getD j d)
  | [], _ => ⟨le_refl _, fun _ _ _ => rfl⟩
  | r :: recs, ps => by
    have h1 := hstep ps r
    have h2 := foldl_ingest_proj g step hstep recs (step ps r)
    rw [List.foldl_cons]
    exact ⟨le_trans h1.1 h2.1, fun j d hj =>
      (h2.2 j d (lt_of_lt_of_le hj h1.1)).trans (h1.2 j d hj)⟩

/-- C8: merges are additive across sources. A later `add_amazon_data`
call overwrites only Amazon fields: the AliExpress fields, the
AliExpress presence flag and the name of every already stored Product —
whichever Product each record resolves to — are exactly what the earlier
`add_aliexpress_data` call left there; symmetrically, a later
`add_aliexpress_data` call leaves every Amazon field and the Amazon
presence flag unchanged. Stored Products are identified positionally,
which is sound because ingestion only updates in place or appends. -/
theorem C8_additive_merges (ps : List Product) (amzRecs : List AmzRecord)
    (aliRecs : List AliRecord) (j : Nat) (d : Product) (hj : j < ps.length) :
    (((add_amazon_data ps amzRecs).getD j d).ali_orders = (ps.getD j d).ali_orders ∧
      ((add_amazon_data ps amzRecs).getD j d).ali_reviews = (ps.getD j d).ali_reviews ∧
      ((add_amazon_data ps amzRecs).getD j d).ali_rating = (ps.getD j d).ali_rating ∧
      ((add_amazon_data ps amzRecs).getD j d).ali_price = (ps.getD j d).ali_price ∧
      ((add_amazon_data ps amzRecs).getD j d).ali_url = (ps.getD j d).ali_url ∧
      ((add_amazon_data ps amzRecs).getD j d).has_ali_data = (ps.getD j d).has_ali_data ∧
      ((add_amazon_data ps amzRecs).getD j d).name = (ps.getD j d).name) ∧
      (((add_aliexpress_data ps aliRecs).getD j d).amz_reviews = (ps.getD j d).amz_reviews ∧
        ((add_aliexpress_data ps aliRecs).getD j d).amz_rating = (ps.getD j d).amz_rating ∧
        ((add_aliexpress_data ps aliRecs).getD j d).amz_price = (ps.getD j d).amz_price ∧
        ((add_aliexpress_data ps aliRecs).getD j d).amz_bsr = (ps.getD j d).amz_bsr ∧
        ((add_aliexpress_data ps aliRecs).getD j d).amz_is_prime =
          (ps.getD j d).amz_is_prime ∧
        ((add_aliexpress_data ps aliRecs).getD j d).amz_url = (ps.getD j d).amz_url ∧
        ((add_aliexpress_data ps aliRecs).getD j d).has_amz_data =
          (ps.getD j d).has_amz_data ∧
        ((add_aliexpress_data ps aliRecs).getD j d).name = (ps.getD j d).name) := by
  unfold add_amazon_data add_aliexpress_data
  refine ⟨⟨?_, ?_, ?_, ?_, ?_, ?_, ?_⟩, ?_, ?_, ?_, ?_, ?_, ?_, ?_, ?_⟩
  · exact (foldl_ingest_proj (fun p => p.ali_orders) amzStep
      (fun ps r => ingestWith_proj (fun p => p.ali_orders) (applyAmz r) (fun _ => rfl) ps
        (clean_product_name (r.name.getD ""))) amzRecs ps).2 j d hj
  · exact (foldl_ingest_proj (fun p => p.ali_reviews) amzStep
      (fun ps r => ingestWith_proj (fun p => p.ali_reviews) (applyAmz r) (fun _ => rfl) ps
        (clean_product_name (r.name.getD ""))) amzRecs ps).2 j d hj
  · exact (foldl_ingest_proj (fun p => p.ali_rating) amzStep
      (fun ps r => ingestWith_proj (fun p => p.ali_rating) (applyAmz r) (fun _ => rfl) ps
        (clean_product_name (r.name.getD ""))) amzRecs ps).2 j d hj
  · exact (foldl_ingest_proj (fun p => p.ali_price) amzStep
      (fun ps r => ingestWith_proj (fun p => p.ali_price) (applyAmz r) (fun _ => rfl) ps
        (clean_product_name (r.name.getD ""))) amzRecs ps).2 j d hj
  · exact (foldl_ingest_proj (fun p => p.ali_url) amzStep
      (fun ps r => ingestWith_proj (fun p => p.ali_url) (applyAmz r) (fun _ => rfl) ps
        (clean_product_name (r.name.getD ""))) amzRecs ps).2 j d hj
  · exact (foldl_ingest_proj (fun p => p.has_ali_data) amzStep
      (fun ps r => ingestWith_proj (fun p => p.has_ali_data) (applyAmz r) (fun _ => rfl) ps
        (clean_product_name (r.name.getD ""))) amzRecs ps).2 j d hj
  · exact (foldl_ingest_proj (fun p => p.name) amzStep
      (fun ps r => ingestWith_proj (fun p => p.name) (applyAmz r) (fun _ => rfl) ps
        (clean_product_name (r.name.getD ""))) amzRecs ps).2 j d hj
  · exact (foldl_ingest_proj (fun p => p.amz_reviews) aliStep
      (fun ps r => ingestWith_proj (fun p => p.amz_reviews) (applyAli r) (fun _ => rfl) ps
        (clean_product_name (r.name.getD ""))) aliRecs ps).2 j d hj
  · exact (foldl_ingest_proj (fun p => p.amz_rating) aliStep
      (fun ps r => ingestWith_proj (fun p => p.amz_rating) (applyAli r) (fun _ => rfl) ps
        (clean_product_name (r.name.getD ""))) aliRecs ps).2 j d hj
  · exact (foldl_ingest_proj (fun p => p.amz_price) aliStep
      (fun ps r => ingestWith_proj (fun p => p.amz_price) (applyAli r) (fun _ => rfl) ps
        (clean_product_name (r.name.getD ""))) aliRecs ps).2 j d hj
  · exact (foldl_ingest_proj (fun p => p.amz_bsr) aliStep
      (fun ps r => ingestWith_proj (fun p => p.amz_bsr) (applyAli r) (fun _ => rfl) ps
        (clean_product_name (r.name.getD ""))) aliRecs ps).2 j d hj
  · exact (foldl_ingest_proj (fun p => p.amz_is_prime) aliStep
      (fun ps r => ingestWith_proj (fun p => p.amz_is_prime) (applyAli r) (fun _ => rfl) ps
        (clean_product_name (r.name.getD ""))) aliRecs ps).2 j d hj
  · exact (foldl_ingest_proj (fun p => p.amz_url) aliStep
      (fun ps r => ingestWith_proj (fun p => p.amz_url) (applyAli r) (fun _ => rfl) ps
        (clean_product_name (r.name.getD ""))) aliRecs ps).2 j d hj
  · exact (foldl_ingest_proj (fun p => p.has_amz_data) aliStep
      (fun ps r => ingestWith_proj (fun p => p.has_amz_data) (applyAli r) (fun _ => rfl) ps
        (clean_product_name (r.name.getD ""))) aliRecs ps).2 j d hj
  · exact (foldl_ingest_proj (fun p => p.name) aliStep
      (fun ps r => ingestWith_proj (fun p => p.name) (applyAli r) (fun _ => rfl) ps
        (clean_product_name (r.name.getD ""))) aliRecs ps).2 j d hj

theorem C8_additive_merges_witness :
    ((add_amazon_data c8AfterAli [c8AmzRecord]).getD 0 (newProduct "zzz")).ali_orders =
        (c8AfterAli.getD 0 (newProduct "zzz")).ali_orders ∧
      ((add_amazon_data c8AfterAli [c8AmzRecord]).getD 0 (newProduct "zzz")).has_ali_data =
        (c8AfterAli.getD 0 (newProduct "zzz")).has_ali_data := by
  have h := C8_additive_merges c8AfterAli [c8AmzRecord] [] 0 (newProduct "zzz") (by decide)
  exact ⟨h.1.1, h.1.2.2.2.2.2.1⟩

/-! ### C4: the insertion-argsort path of `nargsort` for at most 16 rows -/

theorem toArray_getD (l : List ℚ) (i : Nat) (d : ℚ) : l.toArray.getD i d = l.getD i d := by
  simp [Array.getD, List.getD_eq_getElem?_getD]
  split
  · next h => rw [List.getElem?_eq_getElem h]; rfl
  · next h => rw [List.getElem?_eq_none (by omega)]; rfl

theorem getD_reverse (l : List ℚ) (k : Nat) (hk : k < l.length) :
    l.reverse.getD k 0 = l.getD (l.length - 1 - k) 0 := by
  rw [List.getD_eq_getElem?_getD, List.getD_eq_getElem?_getD, List.getElem?_reverse hk]

theorem natGetD_reverse_range (n k : Nat) (hk : k < n) :
    (List.range n).reverse.getD k 0 = n - 1 - k := by
  rw [List.getD_eq_getElem?_getD,
    List.getElem?_reverse (by rw [List.length_range]; exact hk),
    List.length_range,
    List.getElem?_eq_getElem (by rw [List.length_range]; omega),
    List.getElem_range]
  rfl

theorem map_reverse_range (n : Nat) :
    (List.range n).map (fun k => n - 1 - k) = (List.range n).reverse := by
  conv_rhs => rw [List.range_eq_range', List.reverse_range']
  exact List.map_congr_left (fun a _ => by simp)

theorem mem_insertIdx (lt : Nat → Nat → Bool) (i : Nat) :
    ∀ (l : List Nat) (k : Nat), k ∈ insertIdx lt i l ↔ k = i ∨ k ∈ l
  | [], k => by simp [insertIdx]
  | j :: rest, k => by
    unfold insertIdx
    split
    · simp [or_comm, List.mem_cons, or_assoc, or_left_comm]
    · simp only [List.mem_cons, mem_insertIdx lt i rest k]
      tauto

theorem insertIdx_perm (lt : Nat → Nat → Bool) (i : Nat) :
    ∀ l : List Nat, (insertIdx lt i l).Perm (i :: l)
  | [] => List.Perm.refl _
  | j :: rest => by
    unfold insertIdx
    split
    · exact List.Perm.refl _
    · exact ((insertIdx_perm lt i rest).cons j).trans (List.Perm.swap i j rest)

theorem insertIdx_pairwise (v : Nat → ℚ) (i : Nat) :
    ∀ l : List Nat, l.Pairwise (lexv v) → (∀ j ∈ l, v j = v i → j < i) →
      (insertIdx (fun a b => decide (v a < v b)) i l).Pairwise (lexv v)
  | [], _, _ => List.pairwise_singleton _ _
  | j :: rest, hl, hmem => by
    unfold insertIdx
    split
    · next hij =>
      have hij' : v i < v j := of_decide_eq_true hij
      refine List.pairwise_cons.mpr ⟨?_, hl⟩
      intro k hk
      rcases List.mem_cons.mp hk with rfl | hk
      · exact Or.inl hij'
      · rcases List.rel_of_pairwise_cons hl hk with h | ⟨heq, _⟩
        · exact Or.inl (hij'.trans h)
        · exact Or.inl (heq ▸ hij')
    · next hij =>
      have hij' : ¬v i < v j := fun hc => hij (decide_eq_true hc)
      refine List.pairwise_cons.mpr ⟨?_, ?_⟩
      · intro k hk
        rcases (mem_insertIdx _ i rest k).mp hk with rfl | hk
        · rcases lt_or_eq_of_le (le_of_not_lt hij') with h | h
          · exact Or.inl h
          · exact Or.inr ⟨h, hmem j (List.mem_cons_self j rest) h⟩
        · exact List.rel_of_pairwise_cons hl hk
      · exact insertIdx_pairwise v i rest (List.pairwise_cons.mp hl).2
          (fun k hk => hmem k (List.mem_cons_of_mem j hk))

theorem foldl_insertIdx_perm (lt : Nat → Nat → Bool) :
    ∀ (seg acc : List Nat),
      (seg.foldl (fun a i => insertIdx lt i a) acc).Perm (seg ++ acc)
  | [], acc => List.Perm.refl _
  | i :: seg, acc => by
    rw [List.foldl_cons, List.cons_append]
    exact (foldl_insertIdx_perm lt seg (insertIdx lt i acc)).trans
      ((List.Perm.append_left seg (insertIdx_perm lt i acc)).trans List.perm_middle)

theorem foldl_insertIdx_pairwise (v : Nat → ℚ) :
    ∀ (seg acc : List Nat), acc.Pairwise (lexv v) →
      (∀ j ∈ acc, ∀ i ∈ seg, j < i) → seg.Pairwise (· < ·) →
      (seg.foldl (fun a i => insertIdx (fun a b => decide (v a < v b)) i a) acc).Pairwise
        (lexv v)
  | [], acc, hacc, _, _ => hacc
  | i :: seg, acc, hacc, hmem, hseg => by
    rw [List.foldl_cons]
    refine foldl_insertIdx_pairwise v seg _ ?_ ?_ (List.pairwise_cons.mp hseg).2
    · exact insertIdx_pairwise v i acc hacc
        (fun j hj hv => hmem j hj i (List.mem_cons_self i seg))
    · intro j hj i' hi'
      rcases (mem_insertIdx _ i acc j).mp hj with rfl | hj
      · exact List.rel_of_pairwise_cons hseg hi'
      · exact hmem j hj i' (List.mem_cons_of_mem i hi')

theorem insertionArgsort_perm (lt : Nat → Nat → Bool) (seg : List Nat) :
    (insertionArgsort lt seg).Perm seg := by
  unfold insertionArgsort
  have h := foldl_insertIdx_perm lt seg []
  rwa [List.append_nil] at h

theorem insertionArgsort_range_pairwise (v : Nat → ℚ) (n : Nat) :
    (insertionArgsort (fun a b => decide (v a < v b)) (List.range n)).Pairwise (lexv v) :=
  foldl_insertIdx_pairwise v (List.range n) [] (List.Pairwise.nil)
    (fun j hj => absurd hj (List.not_mem_nil j)) (List.pairwise_lt_range n)

theorem npArgsortQuick_small (values : List ℚ) (h : values.length ≤ 16) :
    npArgsortQuick values =
      insertionArgsort (fun i j => decide (values.getD i 0 < values.getD j 0))
        (List.range values.length) := by
  have hc : (List.range values.length).length ≤ SMALL_QUICKSORT + 1 := by
    rw [List.length_range]
    unfold SMALL_QUICKSORT
    omega
  unfold npArgsortQuick aqsortGo
  dsimp only
  rw [if_pos hc]
  dsimp only
  congr 1
  funext i j
  rw [toArray_getD, toArray_getD]

theorem nargsortDesc_small (values : List ℚ) (h : values.length ≤ 16) :
    (nargsortDesc values).Perm (List.range values.length) ∧
      (nargsortDesc values).Pairwise (rankedBefore values) := by
  have hn : values.reverse.length = values.length := List.length_reverse values
  have hR := npArgsortQuick_small values.reverse (by rw [hn]; exact h)
  set n := values.length with hn'
  set vrev : Nat → ℚ := fun k => values.reverse.getD k 0 with hvrev
  set R := insertionArgsort (fun i j => decide (vrev i < vrev j)) (List.range n) with hRdef
  have hReq : npArgsortQuick values.reverse = R := by rw [hR, hn]
  have hperm : R.Perm (List.range n) := insertionArgsort_perm _ _
  have hpair : R.Pairwise (lexv vrev) := insertionArgsort_range_pairwise vrev n
  have hmemR : ∀ k ∈ R, k < n := fun k hk =>
    List.mem_range.mp (hperm.subset hk)
  have hfinal : nargsortDesc values = (R.map (fun k => n - 1 - k)).reverse := by
    unfold nargsortDesc
    dsimp only
    rw [hReq]
    congr 1
    refine List.map_congr_left ?_
    intro k hk
    exact natGetD_reverse_range n k (hmemR k hk)
  constructor
  · rw [hfinal]
    refine (List.reverse_perm _).trans ((hperm.map _).trans ?_)
    rw [map_reverse_range]
    exact List.reverse_perm _
  · rw [hfinal, List.pairwise_reverse, List.pairwise_map]
    refine hpair.imp_of_mem ?_
    intro a b ha hb hab
    have han : a < n := hmemR a ha
    have hbn : b < n := hmemR b hb
    have hva : vrev a = values.getD (n - 1 - a) 0 := getD_reverse values a han
    have hvb : vrev b = values.getD (n - 1 - b) 0 := getD_reverse values b hbn
    rcases hab with hlt | ⟨heq, hab⟩
    · exact Or.inl (by rw [← hva, ← hvb]; exact hlt)
    · exact Or.inr ⟨by rw [← hva, ← hvb, heq], by omega⟩

/-- C4, amended: for at most 16 products, the ranking returned by the
scoring stage is exactly the descending stable sort the claim describes:
the `nargsort` indexer is a permutation of the row positions, pairwise
ordered by strictly greater composite score with equal scores in
insertion order (at that size numpy's quicksort runs its stable
insertion sort), the sorted table is the rows taken in indexer order,
and scores [0.2, 0.9, 0.5] come back as [0.9, 0.5, 0.2]. For 17 or more
rows the default quicksort partitioning can reorder rows with equal
composite scores (see the counterexample). -/
theorem C4_amended (ps : List Product) (hlen : ps.length ≤ 16) :
    (nargsortDesc (compositeColumn ps)).Perm (List.range ps.length) ∧
      (nargsortDesc (compositeColumn ps)).Pairwise (rankedBefore (compositeColumn ps)) ∧
      calculate_composite_scores_table ps =
        (nargsortDesc (compositeColumn ps)).map
          (fun i => (scoredRows ps).getD i defaultScoredRow) ∧
      (sortByCompositeDesc [{ defaultScoredRow with composite_score := 0.2 },
            { defaultScoredRow with composite_score := 0.9 },
            { defaultScoredRow with composite_score := 0.5 }]).map
          (fun r => r.composite_score) = [0.9, 0.5, 0.2] := by
  have hcol : (compositeColumn ps).length = ps.length := by
    simp [compositeColumn, scoredRows]
  have h := nargsortDesc_small (compositeColumn ps) (by rw [hcol]; exact hlen)
  refine ⟨by rw [← hcol]; exact h.1, h.2, rfl, by with_unfolding_all rfl⟩

theorem C4_amended_witness :
    (nargsortDesc (compositeColumn c4WitnessProducts)).Perm
        (List.range c4WitnessProducts.length) ∧
      (nargsortDesc (compositeColumn c4WitnessProducts)).Pairwise
        (rankedBefore (compositeColumn c4WitnessProducts)) ∧
      calculate_composite_scores_table c4WitnessProducts =
        (nargsortDesc (compositeColumn c4WitnessProducts)).map
          (fun i => (scoredRows c4WitnessProducts).getD i defaultScoredRow) ∧
      (sortByCompositeDesc [{ defaultScoredRow with composite_score := 0.2 },
            { defaultScoredRow with composite_score := 0.9 },
            { defaultScoredRow with composite_score := 0.5 }]).map
          (fun r => r.composite_score) = [0.9, 0.5, 0.2] :=
  C4_amended c4WitnessProducts (by decide)

/-- C4, counterexample: with 17 products all of composite score 79/400,
the ranking returned by `calculate_composite_scores` does **not** keep
the insertion order of the equal-scoring rows: once a segment exceeds 16
elements, the pandas-default numpy quicksort partition swaps equal keys
across the pivot. -/
theorem C4_counterexample :
    compositeColumn c4Products = List.replicate 17 (79 / 400 : ℚ) ∧
      (calculate_composite_scores_table c4Products).map (fun r => r.row.product.name) ≠
        c4Products.map (fun p => p.name) := by
  constructor
  · with_unfolding_all rfl
  · with_unfolding_all decide

end BranchPeg
